import Mathlib

/-!
# Command pattern demo (`src/Command/main.cpp`)

Shallow embedding of the single translation unit of the repository.

* Every C++ object (`Invoker`, `SimpleCommand`, `ComplexCommand`, `Receiver`)
  lives in an object store; a reference or a non-null pointer is an address
  into that store, a nullable pointer is an `Option Addr`.
* `std::cout` is the string of everything written so far; `operator<<`
  appends to it.
* `std::string` values are Lean strings.
* A member function is a function `Addr → … → World → Option World`; using a
  pointer or reference that does not designate a live object of the expected
  class has no defined behaviour in C++ and yields `none`.
* `World.calls` is a history variable: it records, in order, every entry into
  `Execute`, `DoSomething` and `DoSomethingElse`.  No function reads it.
-/

namespace Command

/-- Address of an object in the store. -/
abbrev Addr := Nat

/-- The class `Receiver`: it has no data members. -/
structure Receiver where
  deriving DecidableEq

/-- Data members of `SimpleCommand`. -/
structure SimpleCommand where
  payload : String
  deriving DecidableEq

/-- Data members of `ComplexCommand`: `Receiver &receiver`, `a`, `b`. -/
structure ComplexCommand where
  receiver : Addr
  a : String
  b : String
  deriving DecidableEq

/-- The classes of the repository that implement the interface `ICommand`. -/
inductive ICommand where
  | simple (c : SimpleCommand)
  | complex (c : ComplexCommand)
  deriving DecidableEq

/-- Data members of `Invoker`: two `const ICommand*`, both initialised to
`nullptr`. -/
structure Invoker where
  onStart : Option Addr := none
  onFinish : Option Addr := none
  deriving DecidableEq

/-- An object of one of the classes of the program. -/
inductive Object where
  | receiver (r : Receiver)
  | command (c : ICommand)
  | invoker (i : Invoker)
  deriving DecidableEq

/-- Entry into one of the member functions that perform an action. -/
inductive Call where
  | Execute (self : Addr)
  | DoSomething (self : Addr) (a : String)
  | DoSomethingElse (self : Addr) (b : String)
  deriving DecidableEq

/-- Program state: the text written to `std::cout`, the object store
(address = position) and the history of calls. -/
structure World where
  cout : String
  objects : List Object
  calls : List Call
  deriving DecidableEq

/-- State at program start: nothing written, no object, no call. -/
def World.init : World := ⟨"", [], []⟩

/-- Embeds `std::cout << s`. -/
def World.put (w : World) (s : String) : World :=
  { w with cout := w.cout ++ s }

/-- History update at the entry of a member function. -/
def World.record (w : World) (c : Call) : World :=
  { w with calls := w.calls ++ [c] }

/-- Storage for a new object: the next free address. -/
def World.alloc (w : World) (o : Object) : Addr × World :=
  (w.objects.length, { w with objects := w.objects ++ [o] })

/-- Designates `*p` as a `Receiver`. -/
def World.receiverAt (w : World) (p : Addr) : Option Receiver :=
  match w.objects[p]? with
  | some (.receiver r) => some r
  | _ => none

/-- Designates `*p` as a `SimpleCommand`. -/
def World.simpleAt (w : World) (p : Addr) : Option SimpleCommand :=
  match w.objects[p]? with
  | some (.command (.simple c)) => some c
  | _ => none

/-- Designates `*p` as a `ComplexCommand`. -/
def World.complexAt (w : World) (p : Addr) : Option ComplexCommand :=
  match w.objects[p]? with
  | some (.command (.complex c)) => some c
  | _ => none

/-- Designates `*p` as an `Invoker`. -/
def World.invokerAt (w : World) (p : Addr) : Option Invoker :=
  match w.objects[p]? with
  | some (.invoker i) => some i
  | _ => none

/-! ## SimpleCommand -/

/-- Constructor `SimpleCommand(const std::string &payload)`. -/
def SimpleCommand.new (payload : String) (w : World) : Addr × World :=
  w.alloc (.command (.simple { payload := payload }))

/-- Member `void SimpleCommand::Execute() const`. -/
def SimpleCommand.Execute (self : Addr) (w : World) : Option World := do
  let this ← w.simpleAt self
  let w := w.record (.Execute self)
  let w := w.put "SimpleCommand: See, I can do simple things like printing ("
  let w := w.put this.payload
  let w := w.put ")\n"
  pure w

/-! ## Receiver -/

/-- Implicit default constructor of `Receiver`. -/
def Receiver.new (w : World) : Addr × World :=
  w.alloc (.receiver {})

/-- Member `void Receiver::DoSomething(const std::string &a)`. -/
def Receiver.DoSomething (self : Addr) (a : String) (w : World) : Option World := do
  let _ ← w.receiverAt self
  let w := w.record (.DoSomething self a)
  let w := w.put "Receiver: Working on ("
  let w := w.put a
  let w := w.put ".)\n"
  pure w

/-- Member `void Receiver::DoSomethingElse(const std::string &b)`. -/
def Receiver.DoSomethingElse (self : Addr) (b : String) (w : World) : Option World := do
  let _ ← w.receiverAt self
  let w := w.record (.DoSomethingElse self b)
  let w := w.put "Receiver: Also working on ("
  let w := w.put b
  let w := w.put ".)\n"
  pure w

/-! ## ComplexCommand -/

/-- Constructor `ComplexCommand(Receiver &receiver, const std::string &a,
const std::string &b)`. -/
def ComplexCommand.new (receiver : Addr) (a b : String) (w : World) : Addr × World :=
  w.alloc (.command (.complex { receiver := receiver, a := a, b := b }))

/-- Member `void ComplexCommand::Execute() const`. -/
def ComplexCommand.Execute (self : Addr) (w : World) : Option World := do
  let _ ← w.complexAt self
  let w := w.record (.Execute self)
  let w := w.put "ComplexCommand: Complex stuff should be done by a receiver object.\n"
  let this ← w.complexAt self
  let w ← Receiver.DoSomething this.receiver this.a w
  let this ← w.complexAt self
  let w ← Receiver.DoSomethingElse this.receiver this.b w
  pure w

/-! ## ICommand -/

/-- Virtual call `p->Execute()` through a `const ICommand*`: dispatch on the
class of the object. -/
def ICommand.Execute (self : Addr) (w : World) : Option World :=
  match w.objects[self]? with
  | some (.command (.simple _)) => SimpleCommand.Execute self w
  | some (.command (.complex _)) => ComplexCommand.Execute self w
  | _ => none

/-! ## Invoker -/

/-- Implicit default constructor of `Invoker`: both slots are `nullptr`. -/
def Invoker.new (w : World) : Addr × World :=
  w.alloc (.invoker { onStart := none, onFinish := none })

/-- Member `void Invoker::SetOnStart(const ICommand &command)`. -/
def Invoker.SetOnStart (self : Addr) (command : Addr) (w : World) : Option World := do
  let this ← w.invokerAt self
  pure { w with objects := w.objects.set self (.invoker { this with onStart := some command }) }

/-- Member `void Invoker::SetOnFinish(const ICommand &command)`. -/
def Invoker.SetOnFinish (self : Addr) (command : Addr) (w : World) : Option World := do
  let this ← w.invokerAt self
  pure { w with objects := w.objects.set self (.invoker { this with onFinish := some command }) }

/-- Member `void Invoker::DoSomethingImportant()`. -/
def Invoker.DoSomethingImportant (self : Addr) (w : World) : Option World := do
  let _ ← w.invokerAt self
  let w := w.put "Invoker: Does anybody want something done before I begin?\n"
  let this ← w.invokerAt self
  let w ← match this.onStart with
    | some c => ICommand.Execute c w
    | none => pure w
  let w := w.put "Invoker: ...doing something really important...\n"
  let w := w.put "Invoker: Does anybody want something done after I finish?\n"
  let this ← w.invokerAt self
  let w ← match this.onFinish with
    | some c => ICommand.Execute c w
    | none => pure w
  pure w

/-! ## main -/

/-- The function `int main()`: returns the exit status and the final state. -/
def main (w : World) : Option (Int × World) := do
  let (invoker, w) := Invoker.new w
  let (simpleCommand, w) := SimpleCommand.new "Say Hi!" w
  let w ← Invoker.SetOnStart invoker simpleCommand w
  let (receiver, w) := Receiver.new w
  let (complexCommand, w) := ComplexCommand.new receiver "Send email" "Save report" w
  let w ← Invoker.SetOnFinish invoker complexCommand w
  let w ← Invoker.DoSomethingImportant invoker w
  pure (0, w)

/-! ## Vocabulary of the properties -/

/-- A pointer that may be used for `p->Execute()`: it designates a live
command, and for a `ComplexCommand` the receiver it refers to is live. -/
def validCommand (objects : List Object) (p : Addr) : Bool :=
  match objects[p]? with
  | some (.command (.simple _)) => true
  | some (.command (.complex c)) =>
    match objects[c.receiver]? with
    | some (.receiver _) => true
    | _ => false
  | _ => false

/-- A slot of the invoker that may be used: null, or a valid command. -/
def validSlot (objects : List Object) : Option Addr → Bool
  | none => true
  | some p => validCommand objects p

/-- The text that `p->Execute()` writes: what is on the stream after running
it on an empty stream (nothing when the call is not defined). -/
def ICommand.output (p : Addr) (objects : List Object) : String :=
  match ICommand.Execute p { cout := "", objects := objects, calls := [] } with
  | some w1 => w1.cout
  | none => ""

/-- The calls that `p->Execute()` makes: what is in the history after running
it on an empty history (nothing when the call is not defined). -/
def ICommand.trace (p : Addr) (objects : List Object) : List Call :=
  match ICommand.Execute p { cout := "", objects := objects, calls := [] } with
  | some w1 => w1.calls
  | none => []

/-- The text a slot contributes: nothing when it is null. -/
def slotOutput (objects : List Object) : Option Addr → String
  | none => ""
  | some p => ICommand.output p objects

/-- The calls a slot contributes: none when it is null. -/
def slotTrace (objects : List Object) : Option Addr → List Call
  | none => []
  | some p => ICommand.trace p objects

/-- The commands whose `Execute` was entered, in order. -/
def executed (cs : List Call) : List Addr :=
  cs.filterMap fun
    | .Execute p => some p
    | _ => none

/-- The text is one line: exactly one newline character, at its end. -/
def isOneLine (s : String) : Prop :=
  s.data.count (Char.ofNat 10) = 1 ∧ s.data.getLast? = some (Char.ofNat 10)

instance (s : String) : Decidable (isOneLine s) := by
  unfold isOneLine; infer_instance

/-! ## Lemmas on the member functions -/

theorem SimpleCommand.Execute_writes (w : World) (p : Addr) (c : SimpleCommand)
    (h : w.objects[p]? = some (.command (.simple c))) :
    SimpleCommand.Execute p w = some
      { cout := w.cout ++ "SimpleCommand: See, I can do simple things like printing ("
          ++ c.payload ++ ")\n",
        objects := w.objects,
        calls := w.calls ++ [.Execute p] } := by
  simp [SimpleCommand.Execute, World.simpleAt, h, World.put, World.record]

theorem Receiver.DoSomething_eq (w : World) (r : Addr) (a : String) (R : Receiver)
    (h : w.objects[r]? = some (.receiver R)) :
    Receiver.DoSomething r a w = some
      { cout := w.cout ++ "Receiver: Working on (" ++ a ++ ".)\n",
        objects := w.objects,
        calls := w.calls ++ [.DoSomething r a] } := by
  simp [Receiver.DoSomething, World.receiverAt, h, World.put, World.record]

theorem Receiver.DoSomethingElse_eq (w : World) (r : Addr) (b : String) (R : Receiver)
    (h : w.objects[r]? = some (.receiver R)) :
    Receiver.DoSomethingElse r b w = some
      { cout := w.cout ++ "Receiver: Also working on (" ++ b ++ ".)\n",
        objects := w.objects,
        calls := w.calls ++ [.DoSomethingElse r b] } := by
  simp [Receiver.DoSomethingElse, World.receiverAt, h, World.put, World.record]

theorem ComplexCommand.Execute_delegates (w : World) (p : Addr) (c : ComplexCommand) (R : Receiver)
    (h : w.objects[p]? = some (.command (.complex c)))
    (hr : w.objects[c.receiver]? = some (.receiver R)) :
    ComplexCommand.Execute p w = some
      { cout := w.cout
          ++ "ComplexCommand: Complex stuff should be done by a receiver object.\n"
          ++ "Receiver: Working on (" ++ c.a ++ ".)\n"
          ++ "Receiver: Also working on (" ++ c.b ++ ".)\n",
        objects := w.objects,
        calls := w.calls ++ [.Execute p, .DoSomething c.receiver c.a,
          .DoSomethingElse c.receiver c.b] } := by
  simp [ComplexCommand.Execute, World.complexAt, h, World.put, World.record,
    Receiver.DoSomething_eq (R := R), Receiver.DoSomethingElse_eq (R := R), hr,
    String.append_assoc]

theorem ICommand.Execute_simple (w : World) (p : Addr) (c : SimpleCommand)
    (h : w.objects[p]? = some (.command (.simple c))) :
    ICommand.Execute p w = some
      { cout := w.cout ++ "SimpleCommand: See, I can do simple things like printing ("
          ++ c.payload ++ ")\n",
        objects := w.objects,
        calls := w.calls ++ [.Execute p] } := by
  rw [← SimpleCommand.Execute_writes w p c h]
  simp [ICommand.Execute, h]

theorem ICommand.Execute_complex (w : World) (p : Addr) (c : ComplexCommand) (R : Receiver)
    (h : w.objects[p]? = some (.command (.complex c)))
    (hr : w.objects[c.receiver]? = some (.receiver R)) :
    ICommand.Execute p w = some
      { cout := w.cout
          ++ "ComplexCommand: Complex stuff should be done by a receiver object.\n"
          ++ "Receiver: Working on (" ++ c.a ++ ".)\n"
          ++ "Receiver: Also working on (" ++ c.b ++ ".)\n",
        objects := w.objects,
        calls := w.calls ++ [.Execute p, .DoSomething c.receiver c.a,
          .DoSomethingElse c.receiver c.b] } := by
  rw [← ComplexCommand.Execute_delegates w p c R h hr]
  simp [ICommand.Execute, h]

theorem ICommand.output_simple (objects : List Object) (p : Addr) (c : SimpleCommand)
    (h : objects[p]? = some (.command (.simple c))) :
    ICommand.output p objects =
      "SimpleCommand: See, I can do simple things like printing (" ++ c.payload ++ ")\n" := by
  simp [ICommand.output, ICommand.Execute_simple ⟨"", objects, []⟩ p c h]

theorem ICommand.trace_simple (objects : List Object) (p : Addr) (c : SimpleCommand)
    (h : objects[p]? = some (.command (.simple c))) :
    ICommand.trace p objects = [.Execute p] := by
  simp [ICommand.trace, ICommand.Execute_simple ⟨"", objects, []⟩ p c h]

theorem ICommand.output_complex (objects : List Object) (p : Addr) (c : ComplexCommand)
    (R : Receiver) (h : objects[p]? = some (.command (.complex c)))
    (hr : objects[c.receiver]? = some (.receiver R)) :
    ICommand.output p objects =
      "ComplexCommand: Complex stuff should be done by a receiver object.\n"
        ++ "Receiver: Working on (" ++ c.a ++ ".)\n"
        ++ "Receiver: Also working on (" ++ c.b ++ ".)\n" := by
  simp [ICommand.output, ICommand.Execute_complex ⟨"", objects, []⟩ p c R h hr,
    String.append_assoc]

theorem ICommand.trace_complex (objects : List Object) (p : Addr) (c : ComplexCommand)
    (R : Receiver) (h : objects[p]? = some (.command (.complex c)))
    (hr : objects[c.receiver]? = some (.receiver R)) :
    ICommand.trace p objects =
      [.Execute p, .DoSomething c.receiver c.a, .DoSomethingElse c.receiver c.b] := by
  simp [ICommand.trace, ICommand.Execute_complex ⟨"", objects, []⟩ p c R h hr,
    String.append_assoc]

/-- A valid command is a `SimpleCommand`, or a `ComplexCommand` with a live
receiver. -/
theorem validCommand_cases (objects : List Object) (p : Addr)
    (h : validCommand objects p = true) :
    (∃ c, objects[p]? = some (.command (.simple c))) ∨
    (∃ c R, objects[p]? = some (.command (.complex c)) ∧
      objects[c.receiver]? = some (.receiver R)) := by
  unfold validCommand at h
  split at h
  · exact Or.inl ⟨_, ‹_›⟩
  · rename_i c hc
    right
    split at h
    · exact ⟨c, _, hc, ‹_›⟩
    · simp at h
  · simp at h

/-- Executing a valid command appends its text and its calls and leaves the
object store alone. -/
theorem ICommand.Execute_of_valid (w : World) (p : Addr)
    (h : validCommand w.objects p = true) :
    ICommand.Execute p w = some
      { cout := w.cout ++ ICommand.output p w.objects,
        objects := w.objects,
        calls := w.calls ++ ICommand.trace p w.objects } := by
  rcases validCommand_cases _ p h with ⟨c, hc⟩ | ⟨c, R, hc, hr⟩
  · rw [ICommand.Execute_simple w p c hc, ICommand.output_simple _ p c hc,
      ICommand.trace_simple _ p c hc]
    simp [String.append_assoc]
  · rw [ICommand.Execute_complex w p c R hc hr, ICommand.output_complex _ p c R hc hr,
      ICommand.trace_complex _ p c R hc hr]
    simp [String.append_assoc]

/-- A valid command enters `Execute` once, on itself. -/
theorem ICommand.executed_trace (objects : List Object) (p : Addr)
    (h : validCommand objects p = true) :
    executed (ICommand.trace p objects) = [p] := by
  rcases validCommand_cases _ p h with ⟨c, hc⟩ | ⟨c, R, hc, hr⟩
  · rw [ICommand.trace_simple _ p c hc]; rfl
  · rw [ICommand.trace_complex _ p c R hc hr]; rfl

theorem executed_append (xs ys : List Call) :
    executed (xs ++ ys) = executed xs ++ executed ys := by
  simp [executed, List.filterMap_append]

/-- A valid slot enters `Execute` once when it is set, never when it is null. -/
theorem executed_slotTrace (objects : List Object) (s : Option Addr)
    (h : validSlot objects s = true) :
    executed (slotTrace objects s) = s.toList := by
  cases s with
  | none => rfl
  | some p => simpa [slotTrace] using ICommand.executed_trace objects p h

/-- The trigger on an invoker whose slots are valid: the three lines of the
invoker around the contributions of the two slots; the store is not changed. -/
theorem Invoker.DoSomethingImportant_eq (w : World) (self : Addr) (inv : Invoker)
    (hi : w.objects[self]? = some (.invoker inv))
    (hs : validSlot w.objects inv.onStart = true)
    (hf : validSlot w.objects inv.onFinish = true) :
    Invoker.DoSomethingImportant self w = some
      { cout := w.cout
          ++ "Invoker: Does anybody want something done before I begin?\n"
          ++ slotOutput w.objects inv.onStart
          ++ "Invoker: ...doing something really important...\n"
          ++ "Invoker: Does anybody want something done after I finish?\n"
          ++ slotOutput w.objects inv.onFinish,
        objects := w.objects,
        calls := w.calls ++ slotTrace w.objects inv.onStart
          ++ slotTrace w.objects inv.onFinish } := by
  obtain ⟨s, f⟩ := inv
  cases s <;> cases f <;> simp only [validSlot] at hs hf <;>
    simp [Invoker.DoSomethingImportant, World.invokerAt, World.put, hi, slotOutput, slotTrace,
      ICommand.Execute_of_valid, hs, hf, String.append_assoc]

/-! ## Frame lemmas: the store after a setter or a construction -/

/-- Every live object of `objs` other than an invoker is the same in `objs1`. -/
def keeps (objs objs1 : List Object) : Prop :=
  ∀ (q : Addr) (o : Object), objs[q]? = some o → (∀ i, o ≠ Object.invoker i) →
    objs1[q]? = some o

theorem keeps_set (objs : List Object) (i : Addr) (inv inv1 : Invoker)
    (hi : objs[i]? = some (.invoker inv)) :
    keeps objs (objs.set i (.invoker inv1)) := by
  intro q o hq hne
  by_cases hiq : i = q
  · subst hiq
    rw [hi] at hq
    exact absurd (Option.some.inj hq).symm (hne inv)
  · rw [List.getElem?_set_ne hiq]; exact hq

theorem keeps_append (objs more : List Object) : keeps objs (objs ++ more) := by
  intro q o hq _
  obtain ⟨hlt, _⟩ := List.getElem?_eq_some.mp hq
  rw [List.getElem?_append_left hlt]; exact hq

/-- A valid command stays valid, with the same text and the same calls, in a
store that keeps the commands and receivers. -/
theorem validCommand_keeps (objs objs1 : List Object) (p : Addr) (hk : keeps objs objs1)
    (h : validCommand objs p = true) :
    validCommand objs1 p = true ∧ ICommand.output p objs1 = ICommand.output p objs ∧
      ICommand.trace p objs1 = ICommand.trace p objs := by
  rcases validCommand_cases _ p h with ⟨c, hc⟩ | ⟨c, R, hc, hr⟩
  · have hc1 := hk _ _ hc (by intro i; simp)
    refine ⟨by simp [validCommand, hc1], ?_, ?_⟩
    · rw [ICommand.output_simple _ p c hc1, ICommand.output_simple _ p c hc]
    · rw [ICommand.trace_simple _ p c hc1, ICommand.trace_simple _ p c hc]
  · have hc1 := hk _ _ hc (by intro i; simp)
    have hr1 := hk _ _ hr (by intro i; simp)
    refine ⟨by simp [validCommand, hc1, hr1], ?_, ?_⟩
    · rw [ICommand.output_complex _ p c R hc1 hr1, ICommand.output_complex _ p c R hc hr]
    · rw [ICommand.trace_complex _ p c R hc1 hr1, ICommand.trace_complex _ p c R hc hr]

theorem validSlot_keeps (objs objs1 : List Object) (s : Option Addr) (hk : keeps objs objs1)
    (h : validSlot objs s = true) :
    validSlot objs1 s = true ∧ slotOutput objs1 s = slotOutput objs s ∧
      slotTrace objs1 s = slotTrace objs s := by
  cases s with
  | none => exact ⟨rfl, rfl, rfl⟩
  | some p => exact validCommand_keeps objs objs1 p hk h

theorem Invoker.SetOnStart_eq (w : World) (self c : Addr) (inv : Invoker)
    (hi : w.objects[self]? = some (.invoker inv)) :
    Invoker.SetOnStart self c w = some
      { cout := w.cout,
        objects := w.objects.set self (.invoker { onStart := some c, onFinish := inv.onFinish }),
        calls := w.calls } := by
  simp [Invoker.SetOnStart, World.invokerAt, hi]

theorem Invoker.SetOnFinish_eq (w : World) (self c : Addr) (inv : Invoker)
    (hi : w.objects[self]? = some (.invoker inv)) :
    Invoker.SetOnFinish self c w = some
      { cout := w.cout,
        objects := w.objects.set self (.invoker { onStart := inv.onStart, onFinish := some c }),
        calls := w.calls } := by
  simp [Invoker.SetOnFinish, World.invokerAt, hi]

theorem getElem?_set_of_some (objs : List Object) (i : Addr) (o o1 : Object)
    (hi : objs[i]? = some o) : (objs.set i o1)[i]? = some o1 := by
  obtain ⟨hlt, _⟩ := List.getElem?_eq_some.mp hi
  exact List.getElem?_set_self hlt

/-- The trigger after the invoker at `self` was overwritten with `inv1`, whose
slots are valid in the store before the overwrite. -/
theorem Invoker.DoSomethingImportant_set (w : World) (self : Addr) (inv inv1 : Invoker)
    (hi : w.objects[self]? = some (.invoker inv))
    (hs : validSlot w.objects inv1.onStart = true)
    (hf : validSlot w.objects inv1.onFinish = true) :
    Invoker.DoSomethingImportant self
        { cout := w.cout, objects := w.objects.set self (.invoker inv1), calls := w.calls } = some
      { cout := w.cout
          ++ "Invoker: Does anybody want something done before I begin?\n"
          ++ slotOutput w.objects inv1.onStart
          ++ "Invoker: ...doing something really important...\n"
          ++ "Invoker: Does anybody want something done after I finish?\n"
          ++ slotOutput w.objects inv1.onFinish,
        objects := w.objects.set self (.invoker inv1),
        calls := w.calls ++ slotTrace w.objects inv1.onStart
          ++ slotTrace w.objects inv1.onFinish } := by
  have hk := keeps_set w.objects self inv inv1 hi
  obtain ⟨hs1, hso, hst⟩ := validSlot_keeps _ _ _ hk hs
  obtain ⟨hf1, hfo, hft⟩ := validSlot_keeps _ _ _ hk hf
  have hi1 := getElem?_set_of_some w.objects self _ (.invoker inv1) hi
  rw [Invoker.DoSomethingImportant_eq
    ⟨w.cout, w.objects.set self (.invoker inv1), w.calls⟩ self inv1 hi1 hs1 hf1]
  simp only [hso, hst, hfo, hft]

/-- A line made of a fixed text without newline, a string without newline and
a fixed one-line end. -/
theorem isOneLine_wrap (pre P suf : String) (hpre : pre.data.count (Char.ofNat 10) = 0)
    (hP : Char.ofNat 10 ∉ P.data) (hsuf : isOneLine suf) :
    isOneLine (pre ++ P ++ suf) := by
  obtain ⟨h1, h2⟩ := hsuf
  constructor
  · simp only [String.data_append, List.count_append, hpre, List.count_eq_zero.mpr hP, h1]
  · simp [String.data_append, List.getLast?_append, h2]

/-! ## The claims -/

/-- C1: for every invoker state whose slots are null or usable commands,
`DoSomethingImportant` succeeds and writes, in this order, the pre-notification
line, the output of `onStart->Execute()` if `onStart` is set (nothing
otherwise), the internal-work line, the post-notification line, and the output
of `onFinish->Execute()` if `onFinish` is set (nothing otherwise); during the
trigger `Execute` is entered exactly once for each set slot, `onStart` before
`onFinish`; with only `onFinish` set, its output follows the post-notification
and it is the one command executed. -/
theorem C1_DoSomethingImportant_order (w : World) (self : Addr) (inv : Invoker)
    (hi : w.objects[self]? = some (.invoker inv))
    (hs : validSlot w.objects inv.onStart = true)
    (hf : validSlot w.objects inv.onFinish = true) :
    ∃ w1 cs, Invoker.DoSomethingImportant self w = some w1 ∧
      w1.cout = w.cout
        ++ "Invoker: Does anybody want something done before I begin?\n"
        ++ slotOutput w.objects inv.onStart
        ++ "Invoker: ...doing something really important...\n"
        ++ "Invoker: Does anybody want something done after I finish?\n"
        ++ slotOutput w.objects inv.onFinish ∧
      w1.calls = w.calls ++ cs ∧
      executed cs = inv.onStart.toList ++ inv.onFinish.toList ∧
      (∀ f, inv.onStart = none → inv.onFinish = some f →
        w1.cout = w.cout
          ++ "Invoker: Does anybody want something done before I begin?\n"
          ++ "Invoker: ...doing something really important...\n"
          ++ "Invoker: Does anybody want something done after I finish?\n"
          ++ ICommand.output f w.objects ∧
        executed cs = [f]) := by
  refine ⟨_, slotTrace w.objects inv.onStart ++ slotTrace w.objects inv.onFinish,
    Invoker.DoSomethingImportant_eq w self inv hi hs hf, rfl, ?_, ?_, ?_⟩
  · simp only [List.append_assoc]
  · simp only [executed_append, executed_slotTrace _ _ hs, executed_slotTrace _ _ hf]
  · intro f h1 h2
    simp only [executed_append, executed_slotTrace _ _ hs, executed_slotTrace _ _ hf]
    simp [h1, h2, slotOutput]

/-- C1 at an invoker with only `onFinish` set, to a `SimpleCommand`. -/
theorem C1_DoSomethingImportant_order_witness :
    (⟨"", [.invoker ⟨none, some 1⟩, .command (.simple ⟨"x"⟩)], []⟩ : World).objects[0]? =
      some (.invoker ⟨none, some 1⟩) ∧
    validSlot [.invoker ⟨none, some 1⟩, .command (.simple ⟨"x"⟩)] none = true ∧
    validSlot [.invoker ⟨none, some 1⟩, .command (.simple ⟨"x"⟩)] (some 1) = true ∧
    ∃ w1 cs, Invoker.DoSomethingImportant 0
        ⟨"", [.invoker ⟨none, some 1⟩, .command (.simple ⟨"x"⟩)], []⟩ = some w1 ∧
      w1.cout = ""
        ++ "Invoker: Does anybody want something done before I begin?\n"
        ++ slotOutput [.invoker ⟨none, some 1⟩, .command (.simple ⟨"x"⟩)] none
        ++ "Invoker: ...doing something really important...\n"
        ++ "Invoker: Does anybody want something done after I finish?\n"
        ++ slotOutput [.invoker ⟨none, some 1⟩, .command (.simple ⟨"x"⟩)] (some 1) ∧
      w1.calls = [] ++ cs ∧
      executed cs = (none : Option Addr).toList ++ (some 1).toList ∧
      (∀ f, (none : Option Addr) = none → some 1 = some f →
        w1.cout = ""
          ++ "Invoker: Does anybody want something done before I begin?\n"
          ++ "Invoker: ...doing something really important...\n"
          ++ "Invoker: Does anybody want something done after I finish?\n"
          ++ ICommand.output f [.invoker ⟨none, some 1⟩, .command (.simple ⟨"x"⟩)] ∧
        executed cs = [f]) :=
  ⟨by decide, by decide, by decide,
    C1_DoSomethingImportant_order
      ⟨"", [.invoker ⟨none, some 1⟩, .command (.simple ⟨"x"⟩)], []⟩ 0 ⟨none, some 1⟩
      (by decide) (by decide) (by decide)⟩

/-- C2: for all strings `a`, `b` and any live receiver `r`, executing
`ComplexCommand(r, a, b)` succeeds; it writes the header line, then the line of
`r.DoSomething(a)`, then the line of `r.DoSomethingElse(b)`, and nothing else;
after entering `Execute` the calls it makes are, in this order and once each,
`DoSomething` on `r` with `a` and then `DoSomethingElse` on `r` with `b`
(`a = b` included); the store is not changed. -/
theorem C2_ComplexCommand_Execute_order (w : World) (r : Addr) (R : Receiver) (a b : String)
    (hr : w.objects[r]? = some (.receiver R)) :
    ComplexCommand.Execute (ComplexCommand.new r a b w).1 (ComplexCommand.new r a b w).2 = some
      { cout := w.cout
          ++ "ComplexCommand: Complex stuff should be done by a receiver object.\n"
          ++ ("Receiver: Working on (" ++ a ++ ".)\n")
          ++ ("Receiver: Also working on (" ++ b ++ ".)\n"),
        objects := (ComplexCommand.new r a b w).2.objects,
        calls := w.calls ++ [.Execute (ComplexCommand.new r a b w).1,
          .DoSomething r a, .DoSomethingElse r b] } ∧
    ComplexCommand.Execute (ComplexCommand.new r a b w).1 (ComplexCommand.new r a b w).2 =
      (Receiver.DoSomething r a
        (((ComplexCommand.new r a b w).2.record (.Execute (ComplexCommand.new r a b w).1)).put
          "ComplexCommand: Complex stuff should be done by a receiver object.\n")).bind
        (Receiver.DoSomethingElse r b) := by
  have hp : (ComplexCommand.new r a b w).2.objects[(ComplexCommand.new r a b w).1]? =
      some (.command (.complex ⟨r, a, b⟩)) := by
    simp [ComplexCommand.new, World.alloc]
  have hr1 : (ComplexCommand.new r a b w).2.objects[r]? = some (.receiver R) :=
    keeps_append w.objects _ r _ hr (by intro i; simp)
  constructor
  · rw [ComplexCommand.Execute_delegates _ _ ⟨r, a, b⟩ R hp hr1]
    simp only [ComplexCommand.new, World.alloc, String.append_assoc]
  · simp [ComplexCommand.Execute, World.complexAt, hp, World.put, World.record,
      Receiver.DoSomething_eq (R := R), hr1]

/-- C2 at `a = b`. -/
theorem C2_ComplexCommand_Execute_order_witness :
    (⟨"", [.receiver ⟨⟩], []⟩ : World).objects[0]? = some (.receiver ⟨⟩) ∧
    (ComplexCommand.Execute (ComplexCommand.new 0 "x" "x" ⟨"", [.receiver ⟨⟩], []⟩).1
      (ComplexCommand.new 0 "x" "x" ⟨"", [.receiver ⟨⟩], []⟩).2 = some
      { cout := ""
          ++ "ComplexCommand: Complex stuff should be done by a receiver object.\n"
          ++ ("Receiver: Working on (" ++ "x" ++ ".)\n")
          ++ ("Receiver: Also working on (" ++ "x" ++ ".)\n"),
        objects := (ComplexCommand.new 0 "x" "x" ⟨"", [.receiver ⟨⟩], []⟩).2.objects,
        calls := [] ++ [.Execute (ComplexCommand.new 0 "x" "x" ⟨"", [.receiver ⟨⟩], []⟩).1,
          .DoSomething 0 "x", .DoSomethingElse 0 "x"] } ∧
    ComplexCommand.Execute (ComplexCommand.new 0 "x" "x" ⟨"", [.receiver ⟨⟩], []⟩).1
      (ComplexCommand.new 0 "x" "x" ⟨"", [.receiver ⟨⟩], []⟩).2 =
      (Receiver.DoSomething 0 "x"
        (((ComplexCommand.new 0 "x" "x" ⟨"", [.receiver ⟨⟩], []⟩).2.record
          (.Execute (ComplexCommand.new 0 "x" "x" ⟨"", [.receiver ⟨⟩], []⟩).1)).put
          "ComplexCommand: Complex stuff should be done by a receiver object.\n")).bind
        (Receiver.DoSomethingElse 0 "x")) :=
  ⟨by decide,
    C2_ComplexCommand_Execute_order ⟨"", [.receiver ⟨⟩], []⟩ 0 ⟨⟩ "x" "x" (by decide)⟩

/-- C3: for every payload string `P`, executing `SimpleCommand(P)` succeeds and
writes exactly the fixed text `SimpleCommand: See, I can do simple things like
printing (`, then `P` unchanged, then `)` and a newline, and nothing else; it
enters `Execute` once and leaves the store alone. -/
theorem C3_SimpleCommand_Execute_payload (w : World) (P : String) :
    SimpleCommand.Execute (SimpleCommand.new P w).1 (SimpleCommand.new P w).2 = some
      { cout := w.cout ++ ("SimpleCommand: See, I can do simple things like printing ("
          ++ P ++ ")\n"),
        objects := (SimpleCommand.new P w).2.objects,
        calls := w.calls ++ [.Execute (SimpleCommand.new P w).1] } := by
  have hp : (SimpleCommand.new P w).2.objects[(SimpleCommand.new P w).1]? =
      some (.command (.simple ⟨P⟩)) := by
    simp [SimpleCommand.new, World.alloc]
  rw [SimpleCommand.Execute_writes _ _ ⟨P⟩ hp]
  simp only [SimpleCommand.new, World.alloc, String.append_assoc]

/-- C4: on a freshly constructed `Invoker`, in any state of the program,
`DoSomethingImportant` succeeds, enters no member function of a command or of a
receiver, and writes exactly the three lines of the invoker, in order. -/
theorem C4_fresh_Invoker_trigger (w : World) :
    Invoker.DoSomethingImportant (Invoker.new w).1 (Invoker.new w).2 = some
      { cout := w.cout
          ++ "Invoker: Does anybody want something done before I begin?\n"
          ++ "Invoker: ...doing something really important...\n"
          ++ "Invoker: Does anybody want something done after I finish?\n",
        objects := (Invoker.new w).2.objects,
        calls := w.calls } := by
  have hi : (Invoker.new w).2.objects[(Invoker.new w).1]? = some (.invoker ⟨none, none⟩) := by
    simp [Invoker.new, World.alloc]
  rw [Invoker.DoSomethingImportant_eq _ _ ⟨none, none⟩ hi rfl rfl]
  simp [Invoker.new, World.alloc, slotOutput, slotTrace]

/-- C5: on an invoker on which only `SetOnStart(c)` was called, for every
usable command `c`, the trigger succeeds and writes the pre-notification, the
output of `c->Execute()`, the internal-work line and the post-notification, and
nothing after it; the calls of the trigger are those of one `c->Execute()`,
with `Execute` entered once, on `c`; `onFinish` is null throughout. -/
theorem C5_only_onStart (w : World) (self c : Addr)
    (hi : w.objects[self]? = some (.invoker { onStart := none, onFinish := none }))
    (hc : validCommand w.objects c = true) :
    ∃ w1, (Invoker.SetOnStart self c w).bind (Invoker.DoSomethingImportant self) = some w1 ∧
      w1.cout = w.cout
        ++ "Invoker: Does anybody want something done before I begin?\n"
        ++ ICommand.output c w.objects
        ++ "Invoker: ...doing something really important...\n"
        ++ "Invoker: Does anybody want something done after I finish?\n" ∧
      w1.calls = w.calls ++ ICommand.trace c w.objects ∧
      executed (ICommand.trace c w.objects) = [c] ∧
      w1.invokerAt self = some { onStart := some c, onFinish := none } := by
  have hd := Invoker.DoSomethingImportant_set w self _ ⟨some c, none⟩ hi hc rfl
  have hi1 := getElem?_set_of_some w.objects self _ (.invoker ⟨some c, none⟩) hi
  rw [Invoker.SetOnStart_eq w self c _ hi, Option.some_bind, hd]
  refine ⟨_, rfl, ?_, ?_, ICommand.executed_trace _ _ hc, ?_⟩
  · simp [slotOutput]
  · simp [slotTrace]
  · simp [World.invokerAt, hi1]

/-- C5 at a fresh invoker and a `SimpleCommand`. -/
theorem C5_only_onStart_witness :
    (⟨"", [.invoker ⟨none, none⟩, .command (.simple ⟨"x"⟩)], []⟩ : World).objects[0]? =
      some (.invoker { onStart := none, onFinish := none }) ∧
    validCommand [.invoker ⟨none, none⟩, .command (.simple ⟨"x"⟩)] 1 = true ∧
    ∃ w1, (Invoker.SetOnStart 0 1
        ⟨"", [.invoker ⟨none, none⟩, .command (.simple ⟨"x"⟩)], []⟩).bind
        (Invoker.DoSomethingImportant 0) = some w1 ∧
      w1.cout = ""
        ++ "Invoker: Does anybody want something done before I begin?\n"
        ++ ICommand.output 1 [.invoker ⟨none, none⟩, .command (.simple ⟨"x"⟩)]
        ++ "Invoker: ...doing something really important...\n"
        ++ "Invoker: Does anybody want something done after I finish?\n" ∧
      w1.calls = [] ++ ICommand.trace 1 [.invoker ⟨none, none⟩, .command (.simple ⟨"x"⟩)] ∧
      executed (ICommand.trace 1 [.invoker ⟨none, none⟩, .command (.simple ⟨"x"⟩)]) = [1] ∧
      w1.invokerAt 0 = some { onStart := some 1, onFinish := none } :=
  ⟨by decide, by decide,
    C5_only_onStart ⟨"", [.invoker ⟨none, none⟩, .command (.simple ⟨"x"⟩)], []⟩ 0 1
      (by decide) (by decide)⟩

set_option maxRecDepth 100000

/-- C6: `main`, run from the initial state, returns the status 0 after writing
exactly the seven lines of the demo scenario, in order; the calls made are
`Execute` on the simple command, `Execute` on the complex command,
`DoSomething` with `Send email` and `DoSomethingElse` with `Save report`. -/
theorem C6_main_scenario :
    main World.init = some (0,
      { cout := "Invoker: Does anybody want something done before I begin?\n"
          ++ "SimpleCommand: See, I can do simple things like printing (Say Hi!)\n"
          ++ "Invoker: ...doing something really important...\n"
          ++ "Invoker: Does anybody want something done after I finish?\n"
          ++ "ComplexCommand: Complex stuff should be done by a receiver object.\n"
          ++ "Receiver: Working on (Send email.)\n"
          ++ "Receiver: Also working on (Save report.)\n",
        objects := [.invoker { onStart := some 1, onFinish := some 3 },
          .command (.simple { payload := "Say Hi!" }),
          .receiver {},
          .command (.complex { receiver := 2, a := "Send email", b := "Save report" })],
        calls := [.Execute 1, .Execute 3, .DoSomething 2 "Send email",
          .DoSomethingElse 2 "Save report"] }) := by
  decide

/-- C7: executing a usable command (a `SimpleCommand`, or a `ComplexCommand`
whose receiver is live) twice in a row succeeds both times, writes the output
of one execution twice, makes the calls of one execution twice, and leaves the
store, hence the fields of the command, as it was before. -/
theorem C7_Execute_twice (w : World) (p : Addr) (h : validCommand w.objects p = true) :
    ICommand.Execute p w = some
      { cout := w.cout ++ ICommand.output p w.objects,
        objects := w.objects,
        calls := w.calls ++ ICommand.trace p w.objects } ∧
    (ICommand.Execute p w).bind (ICommand.Execute p) = some
      { cout := w.cout ++ (ICommand.output p w.objects ++ ICommand.output p w.objects),
        objects := w.objects,
        calls := w.calls ++ (ICommand.trace p w.objects ++ ICommand.trace p w.objects) } := by
  refine ⟨ICommand.Execute_of_valid w p h, ?_⟩
  rw [ICommand.Execute_of_valid w p h, Option.some_bind,
    ICommand.Execute_of_valid ⟨w.cout ++ ICommand.output p w.objects, w.objects,
      w.calls ++ ICommand.trace p w.objects⟩ p h]
  simp only [String.append_assoc, List.append_assoc]

/-- C7 at a `ComplexCommand`. -/
theorem C7_Execute_twice_witness :
    validCommand [.receiver ⟨⟩, .command (.complex ⟨0, "a", "b"⟩)] 1 = true ∧
    (ICommand.Execute 1 ⟨"", [.receiver ⟨⟩, .command (.complex ⟨0, "a", "b"⟩)], []⟩ = some
      { cout := "" ++ ICommand.output 1 [.receiver ⟨⟩, .command (.complex ⟨0, "a", "b"⟩)],
        objects := [.receiver ⟨⟩, .command (.complex ⟨0, "a", "b"⟩)],
        calls := [] ++ ICommand.trace 1 [.receiver ⟨⟩, .command (.complex ⟨0, "a", "b"⟩)] } ∧
    (ICommand.Execute 1 ⟨"", [.receiver ⟨⟩, .command (.complex ⟨0, "a", "b"⟩)], []⟩).bind
        (ICommand.Execute 1) = some
      { cout := "" ++ (ICommand.output 1 [.receiver ⟨⟩, .command (.complex ⟨0, "a", "b"⟩)]
          ++ ICommand.output 1 [.receiver ⟨⟩, .command (.complex ⟨0, "a", "b"⟩)]),
        objects := [.receiver ⟨⟩, .command (.complex ⟨0, "a", "b"⟩)],
        calls := [] ++ (ICommand.trace 1 [.receiver ⟨⟩, .command (.complex ⟨0, "a", "b"⟩)]
          ++ ICommand.trace 1 [.receiver ⟨⟩, .command (.complex ⟨0, "a", "b"⟩)]) }) :=
  ⟨by decide,
    C7_Execute_twice ⟨"", [.receiver ⟨⟩, .command (.complex ⟨0, "a", "b"⟩)], []⟩ 1
      (by decide)⟩

/-- C8: a freshly constructed `Invoker` has both slots null; on any invoker,
`SetOnStart(c)` makes `onStart` point to `c` and keeps `onFinish`, and
`SetOnFinish(c)` makes `onFinish` point to `c` and keeps `onStart`; either
setter succeeds for any `c`, writes nothing, enters no member function of a
command or receiver, and changes no other object. -/
theorem C8_slots_default_and_independent (w : World) (self c : Addr) (inv : Invoker)
    (hi : w.objects[self]? = some (.invoker inv)) :
    (Invoker.new w).2.invokerAt (Invoker.new w).1 =
      some { onStart := none, onFinish := none } ∧
    (∃ w1, Invoker.SetOnStart self c w = some w1 ∧
      w1.invokerAt self = some { onStart := some c, onFinish := inv.onFinish } ∧
      w1.cout = w.cout ∧ w1.calls = w.calls ∧
      ∀ q, q ≠ self → w1.objects[q]? = w.objects[q]?) ∧
    (∃ w1, Invoker.SetOnFinish self c w = some w1 ∧
      w1.invokerAt self = some { onStart := inv.onStart, onFinish := some c } ∧
      w1.cout = w.cout ∧ w1.calls = w.calls ∧
      ∀ q, q ≠ self → w1.objects[q]? = w.objects[q]?) := by
  refine ⟨by simp [Invoker.new, World.alloc, World.invokerAt], ?_, ?_⟩
  · refine ⟨_, Invoker.SetOnStart_eq w self c inv hi, ?_, rfl, rfl, ?_⟩
    · simp [World.invokerAt, getElem?_set_of_some _ _ _ _ hi]
    · intro q hq
      exact List.getElem?_set_ne (Ne.symm hq)
  · refine ⟨_, Invoker.SetOnFinish_eq w self c inv hi, ?_, rfl, rfl, ?_⟩
    · simp [World.invokerAt, getElem?_set_of_some _ _ _ _ hi]
    · intro q hq
      exact List.getElem?_set_ne (Ne.symm hq)

/-- C8 at an invoker whose `onFinish` is already set. -/
theorem C8_slots_default_and_independent_witness :
    (⟨"out", [.invoker ⟨none, some 1⟩, .command (.simple ⟨"x"⟩)], []⟩ : World).objects[0]? =
      some (.invoker ⟨none, some 1⟩) ∧
    ((Invoker.new ⟨"out", [.invoker ⟨none, some 1⟩, .command (.simple ⟨"x"⟩)], []⟩).2.invokerAt
        (Invoker.new ⟨"out", [.invoker ⟨none, some 1⟩, .command (.simple ⟨"x"⟩)], []⟩).1 =
      some { onStart := none, onFinish := none } ∧
    (∃ w1, Invoker.SetOnStart 0 7
        ⟨"out", [.invoker ⟨none, some 1⟩, .command (.simple ⟨"x"⟩)], []⟩ = some w1 ∧
      w1.invokerAt 0 = some { onStart := some 7, onFinish := some 1 } ∧
      w1.cout = "out" ∧ w1.calls = [] ∧
      ∀ q, q ≠ 0 → w1.objects[q]? =
        [Object.invoker ⟨none, some 1⟩, .command (.simple ⟨"x"⟩)][q]?) ∧
    (∃ w1, Invoker.SetOnFinish 0 7
        ⟨"out", [.invoker ⟨none, some 1⟩, .command (.simple ⟨"x"⟩)], []⟩ = some w1 ∧
      w1.invokerAt 0 = some { onStart := none, onFinish := some 7 } ∧
      w1.cout = "out" ∧ w1.calls = [] ∧
      ∀ q, q ≠ 0 → w1.objects[q]? =
        [Object.invoker ⟨none, some 1⟩, .command (.simple ⟨"x"⟩)][q]?)) :=
  ⟨by decide,
    C8_slots_default_and_independent
      ⟨"out", [.invoker ⟨none, some 1⟩, .command (.simple ⟨"x"⟩)], []⟩ 0 7 ⟨none, some 1⟩
      (by decide)⟩

/-- C9 as stated fails: `SimpleCommand("a\nb")` writes text with two newline
characters, which is not one line. -/
theorem C9_payload_newline_counterexample :
    (SimpleCommand.Execute (SimpleCommand.new "a\nb" World.init).1
      (SimpleCommand.new "a\nb" World.init).2).map World.cout =
      some "SimpleCommand: See, I can do simple things like printing (a\nb)\n" ∧
    ("SimpleCommand: See, I can do simple things like printing (a\nb)\n").data.count
      (Char.ofNat 10) = 2 ∧
    ¬ isOneLine "SimpleCommand: See, I can do simple things like printing (a\nb)\n" := by
  decide

/-- C9 amended: when the payload `P` and the context strings `a`, `b` hold no
newline character, a `SimpleCommand` execution and each receiver operation
write exactly one line; the header of a `ComplexCommand` execution is one line,
followed by the two receiver lines; the trigger of a fresh invoker writes three
texts that are one line each. -/
theorem C9_one_line_without_newline (w : World) (P a b : String) (r : Addr) (R : Receiver)
    (hr : w.objects[r]? = some (.receiver R))
    (hP : Char.ofNat 10 ∉ P.data) (ha : Char.ofNat 10 ∉ a.data)
    (hb : Char.ofNat 10 ∉ b.data) :
    (∃ t, isOneLine t ∧
      (SimpleCommand.Execute (SimpleCommand.new P w).1 (SimpleCommand.new P w).2).map World.cout =
        some (w.cout ++ t)) ∧
    (∃ t, isOneLine t ∧ (Receiver.DoSomething r a w).map World.cout = some (w.cout ++ t)) ∧
    (∃ t, isOneLine t ∧ (Receiver.DoSomethingElse r b w).map World.cout = some (w.cout ++ t)) ∧
    (∃ h t1 t2, isOneLine h ∧
      (Receiver.DoSomething r a w).map World.cout = some (w.cout ++ t1) ∧
      (Receiver.DoSomethingElse r b w).map World.cout = some (w.cout ++ t2) ∧
      (ComplexCommand.Execute (ComplexCommand.new r a b w).1
        (ComplexCommand.new r a b w).2).map World.cout = some (w.cout ++ h ++ t1 ++ t2)) ∧
    (∃ t1 t2 t3, isOneLine t1 ∧ isOneLine t2 ∧ isOneLine t3 ∧
      (Invoker.DoSomethingImportant (Invoker.new w).1 (Invoker.new w).2).map World.cout =
        some (w.cout ++ t1 ++ t2 ++ t3)) := by
  have l1 := isOneLine_wrap "SimpleCommand: See, I can do simple things like printing (" P
    ")\n" (by decide) hP (by decide)
  have l2 := isOneLine_wrap "Receiver: Working on (" a ".)\n" (by decide) ha (by decide)
  have l3 := isOneLine_wrap "Receiver: Also working on (" b ".)\n" (by decide) hb (by decide)
  have hp : (SimpleCommand.new P w).2.objects[(SimpleCommand.new P w).1]? =
      some (.command (.simple ⟨P⟩)) := by
    simp [SimpleCommand.new, World.alloc]
  have hq : (ComplexCommand.new r a b w).2.objects[(ComplexCommand.new r a b w).1]? =
      some (.command (.complex ⟨r, a, b⟩)) := by
    simp [ComplexCommand.new, World.alloc]
  have hr1 : (ComplexCommand.new r a b w).2.objects[r]? = some (.receiver R) :=
    keeps_append w.objects _ r _ hr (by intro i; simp)
  have hi : (Invoker.new w).2.objects[(Invoker.new w).1]? = some (.invoker ⟨none, none⟩) := by
    simp [Invoker.new, World.alloc]
  have e2 : (Receiver.DoSomething r a w).map World.cout =
      some (w.cout ++ ("Receiver: Working on (" ++ a ++ ".)\n")) := by
    rw [Receiver.DoSomething_eq w r a R hr]
    simp only [Option.map_some', String.append_assoc]
  have e3 : (Receiver.DoSomethingElse r b w).map World.cout =
      some (w.cout ++ ("Receiver: Also working on (" ++ b ++ ".)\n")) := by
    rw [Receiver.DoSomethingElse_eq w r b R hr]
    simp only [Option.map_some', String.append_assoc]
  refine ⟨⟨_, l1, ?_⟩, ⟨_, l2, e2⟩, ⟨_, l3, e3⟩,
    ⟨"ComplexCommand: Complex stuff should be done by a receiver object.\n", _, _,
      by decide, e2, e3, ?_⟩,
    ⟨"Invoker: Does anybody want something done before I begin?\n",
      "Invoker: ...doing something really important...\n",
      "Invoker: Does anybody want something done after I finish?\n",
      by decide, by decide, by decide, ?_⟩⟩
  · rw [SimpleCommand.Execute_writes _ _ ⟨P⟩ hp]
    simp only [Option.map_some', SimpleCommand.new, World.alloc, String.append_assoc]
  · rw [ComplexCommand.Execute_delegates _ _ ⟨r, a, b⟩ R hq hr1]
    simp only [Option.map_some', ComplexCommand.new, World.alloc, String.append_assoc]
  · rw [Invoker.DoSomethingImportant_eq _ _ ⟨none, none⟩ hi rfl rfl]
    simp only [Option.map_some', Invoker.new, World.alloc, slotOutput, String.append_assoc,
      String.append_empty, String.empty_append]

/-- C9 amended, at the strings of the demo scenario. -/
theorem C9_one_line_without_newline_witness :
    (⟨"", [.receiver ⟨⟩], []⟩ : World).objects[0]? = some (.receiver ⟨⟩) ∧
    Char.ofNat 10 ∉ "Say Hi!".data ∧ Char.ofNat 10 ∉ "Send email".data ∧
    Char.ofNat 10 ∉ "Save report".data ∧
    ((∃ t, isOneLine t ∧
      (SimpleCommand.Execute (SimpleCommand.new "Say Hi!" ⟨"", [.receiver ⟨⟩], []⟩).1
        (SimpleCommand.new "Say Hi!" ⟨"", [.receiver ⟨⟩], []⟩).2).map World.cout =
        some ("" ++ t)) ∧
    (∃ t, isOneLine t ∧
      (Receiver.DoSomething 0 "Send email" ⟨"", [.receiver ⟨⟩], []⟩).map World.cout =
        some ("" ++ t)) ∧
    (∃ t, isOneLine t ∧
      (Receiver.DoSomethingElse 0 "Save report" ⟨"", [.receiver ⟨⟩], []⟩).map World.cout =
        some ("" ++ t)) ∧
    (∃ h t1 t2, isOneLine h ∧
      (Receiver.DoSomething 0 "Send email" ⟨"", [.receiver ⟨⟩], []⟩).map World.cout =
        some ("" ++ t1) ∧
      (Receiver.DoSomethingElse 0 "Save report" ⟨"", [.receiver ⟨⟩], []⟩).map World.cout =
        some ("" ++ t2) ∧
      (ComplexCommand.Execute
        (ComplexCommand.new 0 "Send email" "Save report" ⟨"", [.receiver ⟨⟩], []⟩).1
        (ComplexCommand.new 0 "Send email" "Save report" ⟨"", [.receiver ⟨⟩], []⟩).2).map
          World.cout = some ("" ++ h ++ t1 ++ t2)) ∧
    (∃ t1 t2 t3, isOneLine t1 ∧ isOneLine t2 ∧ isOneLine t3 ∧
      (Invoker.DoSomethingImportant (Invoker.new ⟨"", [.receiver ⟨⟩], []⟩).1
        (Invoker.new ⟨"", [.receiver ⟨⟩], []⟩).2).map World.cout =
        some ("" ++ t1 ++ t2 ++ t3))) :=
  ⟨by decide, by decide, by decide, by decide,
    C9_one_line_without_newline ⟨"", [.receiver ⟨⟩], []⟩ "Say Hi!" "Send email" "Save report"
      0 ⟨⟩ (by decide) (by decide) (by decide) (by decide)⟩

/-- C10: on an invoker whose slots are null or usable commands, the trigger
leaves the store, hence both slots, as they were, and a second trigger writes
the text of the first once more; after `SetOnStart(c1); SetOnStart(c2)` with
`c2` usable, the trigger writes the output of `c2` (not of `c1`) between the
pre-notification and the internal-work line and the commands it executes are
`c2` and then `onFinish` if set; after `SetOnFinish(c1); SetOnFinish(c2)` it
writes the output of `c2` after the post-notification and the commands it
executes are `onStart` if set and then `c2`. `c1` is any address. -/
theorem C10_trigger_keeps_slots_reset_replaces (w : World) (self c1 c2 : Addr)
    (inv : Invoker) (hi : w.objects[self]? = some (.invoker inv))
    (hs : validSlot w.objects inv.onStart = true)
    (hf : validSlot w.objects inv.onFinish = true)
    (h2 : validCommand w.objects c2 = true) :
    (∃ w1 w2 t, Invoker.DoSomethingImportant self w = some w1 ∧
      w1.objects = w.objects ∧ w1.invokerAt self = some inv ∧ w1.cout = w.cout ++ t ∧
      Invoker.DoSomethingImportant self w1 = some w2 ∧
      w2.objects = w.objects ∧ w2.cout = w.cout ++ t ++ t) ∧
    (∃ w1 cs, ((Invoker.SetOnStart self c1 w).bind (Invoker.SetOnStart self c2)).bind
        (Invoker.DoSomethingImportant self) = some w1 ∧
      w1.cout = w.cout
        ++ "Invoker: Does anybody want something done before I begin?\n"
        ++ ICommand.output c2 w.objects
        ++ "Invoker: ...doing something really important...\n"
        ++ "Invoker: Does anybody want something done after I finish?\n"
        ++ slotOutput w.objects inv.onFinish ∧
      w1.calls = w.calls ++ cs ∧ executed cs = c2 :: inv.onFinish.toList ∧
      w1.invokerAt self = some { onStart := some c2, onFinish := inv.onFinish }) ∧
    (∃ w1 cs, ((Invoker.SetOnFinish self c1 w).bind (Invoker.SetOnFinish self c2)).bind
        (Invoker.DoSomethingImportant self) = some w1 ∧
      w1.cout = w.cout
        ++ "Invoker: Does anybody want something done before I begin?\n"
        ++ slotOutput w.objects inv.onStart
        ++ "Invoker: ...doing something really important...\n"
        ++ "Invoker: Does anybody want something done after I finish?\n"
        ++ ICommand.output c2 w.objects ∧
      w1.calls = w.calls ++ cs ∧ executed cs = inv.onStart.toList ++ [c2] ∧
      w1.invokerAt self = some { onStart := inv.onStart, onFinish := some c2 }) := by
  refine ⟨?_, ?_, ?_⟩
  · have hd := Invoker.DoSomethingImportant_eq w self inv hi hs hf
    refine ⟨_, _, "Invoker: Does anybody want something done before I begin?\n"
        ++ slotOutput w.objects inv.onStart
        ++ "Invoker: ...doing something really important...\n"
        ++ "Invoker: Does anybody want something done after I finish?\n"
        ++ slotOutput w.objects inv.onFinish,
      hd, rfl, by simp [World.invokerAt, hi], ?_,
      Invoker.DoSomethingImportant_eq ⟨_, w.objects, _⟩ self inv hi hs hf, rfl, ?_⟩
    · simp only [String.append_assoc]
    · simp only [String.append_assoc]
  · have hi1 := getElem?_set_of_some w.objects self _ (.invoker ⟨some c1, inv.onFinish⟩) hi
    have hi2 := getElem?_set_of_some w.objects self _ (.invoker ⟨some c2, inv.onFinish⟩) hi
    have hd := Invoker.DoSomethingImportant_set w self inv ⟨some c2, inv.onFinish⟩ hi h2 hf
    rw [Invoker.SetOnStart_eq w self c1 inv hi, Option.some_bind,
      Invoker.SetOnStart_eq ⟨w.cout, _, w.calls⟩ self c2 ⟨some c1, inv.onFinish⟩ hi1,
      Option.some_bind]
    simp only [List.set_set]
    rw [hd]
    refine ⟨_, ICommand.trace c2 w.objects ++ slotTrace w.objects inv.onFinish, rfl, ?_, ?_,
      ?_, ?_⟩
    · simp [slotOutput]
    · simp [slotTrace]
    · simp [executed_append, ICommand.executed_trace _ _ h2, executed_slotTrace _ _ hf]
    · simp [World.invokerAt, hi2]
  · have hi1 := getElem?_set_of_some w.objects self _ (.invoker ⟨inv.onStart, some c1⟩) hi
    have hi2 := getElem?_set_of_some w.objects self _ (.invoker ⟨inv.onStart, some c2⟩) hi
    have hd := Invoker.DoSomethingImportant_set w self inv ⟨inv.onStart, some c2⟩ hi hs h2
    rw [Invoker.SetOnFinish_eq w self c1 inv hi, Option.some_bind,
      Invoker.SetOnFinish_eq ⟨w.cout, _, w.calls⟩ self c2 ⟨inv.onStart, some c1⟩ hi1,
      Option.some_bind]
    simp only [List.set_set]
    rw [hd]
    refine ⟨_, slotTrace w.objects inv.onStart ++ ICommand.trace c2 w.objects, rfl, ?_, ?_,
      ?_, ?_⟩
    · simp [slotOutput]
    · simp [slotTrace]
    · simp [executed_append, ICommand.executed_trace _ _ h2, executed_slotTrace _ _ hs]
    · simp [World.invokerAt, hi2]

/-- C10 at a fresh invoker, with `c1` and `c2` two different `SimpleCommand`s. -/
theorem C10_trigger_keeps_slots_reset_replaces_witness :
    (⟨"", [.invoker ⟨none, none⟩, .command (.simple ⟨"x"⟩), .command (.simple ⟨"y"⟩)],
      []⟩ : World).objects[0]? = some (.invoker ⟨none, none⟩) ∧
    validSlot [.invoker ⟨none, none⟩, .command (.simple ⟨"x"⟩), .command (.simple ⟨"y"⟩)]
      none = true ∧
    validCommand [.invoker ⟨none, none⟩, .command (.simple ⟨"x"⟩), .command (.simple ⟨"y"⟩)]
      2 = true ∧
    ((∃ w1 w2 t, Invoker.DoSomethingImportant 0
        ⟨"", [.invoker ⟨none, none⟩, .command (.simple ⟨"x"⟩), .command (.simple ⟨"y"⟩)],
          []⟩ = some w1 ∧
      w1.objects =
        [.invoker ⟨none, none⟩, .command (.simple ⟨"x"⟩), .command (.simple ⟨"y"⟩)] ∧
      w1.invokerAt 0 = some ⟨none, none⟩ ∧ w1.cout = "" ++ t ∧
      Invoker.DoSomethingImportant 0 w1 = some w2 ∧
      w2.objects =
        [.invoker ⟨none, none⟩, .command (.simple ⟨"x"⟩), .command (.simple ⟨"y"⟩)] ∧
      w2.cout = "" ++ t ++ t) ∧
    (∃ w1 cs, ((Invoker.SetOnStart 0 1
        ⟨"", [.invoker ⟨none, none⟩, .command (.simple ⟨"x"⟩), .command (.simple ⟨"y"⟩)],
          []⟩).bind (Invoker.SetOnStart 0 2)).bind
        (Invoker.DoSomethingImportant 0) = some w1 ∧
      w1.cout = ""
        ++ "Invoker: Does anybody want something done before I begin?\n"
        ++ ICommand.output 2
          [.invoker ⟨none, none⟩, .command (.simple ⟨"x"⟩), .command (.simple ⟨"y"⟩)]
        ++ "Invoker: ...doing something really important...\n"
        ++ "Invoker: Does anybody want something done after I finish?\n"
        ++ slotOutput
          [.invoker ⟨none, none⟩, .command (.simple ⟨"x"⟩), .command (.simple ⟨"y"⟩)] none ∧
      w1.calls = [] ++ cs ∧ executed cs = 2 :: (none : Option Addr).toList ∧
      w1.invokerAt 0 = some { onStart := some 2, onFinish := none }) ∧
    (∃ w1 cs, ((Invoker.SetOnFinish 0 1
        ⟨"", [.invoker ⟨none, none⟩, .command (.simple ⟨"x"⟩), .command (.simple ⟨"y"⟩)],
          []⟩).bind (Invoker.SetOnFinish 0 2)).bind
        (Invoker.DoSomethingImportant 0) = some w1 ∧
      w1.cout = ""
        ++ "Invoker: Does anybody want something done before I begin?\n"
        ++ slotOutput
          [.invoker ⟨none, none⟩, .command (.simple ⟨"x"⟩), .command (.simple ⟨"y"⟩)] none
        ++ "Invoker: ...doing something really important...\n"
        ++ "Invoker: Does anybody want something done after I finish?\n"
        ++ ICommand.output 2
          [.invoker ⟨none, none⟩, .command (.simple ⟨"x"⟩), .command (.simple ⟨"y"⟩)] ∧
      w1.calls = [] ++ cs ∧ executed cs = (none : Option Addr).toList ++ [2] ∧
      w1.invokerAt 0 = some { onStart := none, onFinish := some 2 })) :=
  ⟨by decide, by decide, by decide,
    C10_trigger_keeps_slots_reset_replaces
      ⟨"", [.invoker ⟨none, none⟩, .command (.simple ⟨"x"⟩), .command (.simple ⟨"y"⟩)], []⟩
      0 1 2 ⟨none, none⟩ (by decide) (by decide) (by decide) (by decide)⟩

end Command
